import Mathlib

/-!
Shallow embedding of the procedural cityscape renderer of
src/create_cyberpunk_art.py (function create_cyberpunk_city, the spec's
render), together with proofs of the specification claims about it.

Modelling conventions:
* Python float arithmetic on the small screen-space quantities of this
  program is modelled by exact rational arithmetic; Python int() applied
  to the (always nonnegative) intermediate values is modelled by floorNN.
* PIL drawing primitives are modelled as clipped per-pixel updates of a
  total pixel function: a primitive writes its color to exactly the
  pixels of its rasterization region that lie inside the canvas bounds,
  and leaves every other pixel unchanged (PIL silently clips).
* random.randint(a, b) draws are modelled by explicit draw records; a
  record is Valid when every drawn value lies in the inclusive range the
  corresponding randint call uses.  random.random() is a rational in
  [0, 1); random.choice over a list is an index into that list.
* Image.alpha_composite and the blur post-process are external library
  operations; they are modelled at the interface the spec documents:
  per-channel over-compositing with rounding, and a normalized
  nonnegative convolution kernel.
-/

namespace Cyberpunk

/-- Python int() on the nonnegative rational values of this program:
floor, then the natural-number image. -/
def floorNN (q : ℚ) : ℕ := (⌊q⌋).toNat

/-- An RGB color; channel values are naturals (the program only ever
builds channels from nonnegative quantities). -/
structure Color where
  r : ℕ
  g : ℕ
  b : ℕ
deriving DecidableEq, Repr

/-- Every channel of the color is a legal 8-bit value. -/
def Color.InRange (c : Color) : Prop := c.r ≤ 255 ∧ c.g ≤ 255 ∧ c.b ≤ 255

instance : DecidablePred Color.InRange := fun c => by
  unfold Color.InRange; infer_instance

/-- An RGBA color used on the atmospheric glow overlay. -/
structure ColorA where
  r : ℕ
  g : ℕ
  b : ℕ
  a : ℕ
deriving DecidableEq, Repr

/-- Every channel, the alpha included, is a legal 8-bit value. -/
def ColorA.InRange (c : ColorA) : Prop :=
  c.r ≤ 255 ∧ c.g ≤ 255 ∧ c.b ≤ 255 ∧ c.a ≤ 255

/-- A canvas: dimensions plus a total pixel function.  Only coordinates
with 0 ≤ x < w and 0 ≤ y < h are part of the image; the function is kept
total so that clipping is expressible. -/
structure Canvas where
  w : ℤ
  h : ℤ
  pix : ℤ → ℤ → Color

/-- Image.new: a canvas filled with one color. -/
def Canvas.new (w h : ℤ) (c : Color) : Canvas := ⟨w, h, fun _ _ => c⟩

/-- Bounds test used by the clipped drawing primitives. -/
def Canvas.inB (cv : Canvas) (x y : ℤ) : Bool :=
  decide (0 ≤ x) && decide (x < cv.w) && decide (0 ≤ y) && decide (y < cv.h)

/-- The single drawing primitive every PIL call of the source reduces
to: write color c to the in-bounds pixels of the region, keep the rest. -/
def paint (cv : Canvas) (reg : ℤ → ℤ → Bool) (c : Color) : Canvas :=
  { cv with pix := fun x y => if cv.inB x y && reg x y then c else cv.pix x y }

/-- An RGBA canvas (the glow overlay layer). -/
structure CanvasA where
  w : ℤ
  h : ℤ
  pix : ℤ → ℤ → ColorA

/-- Image.new in RGBA mode. -/
def CanvasA.new (w h : ℤ) (c : ColorA) : CanvasA := ⟨w, h, fun _ _ => c⟩

/-- Bounds test on the RGBA overlay. -/
def CanvasA.inB (cv : CanvasA) (x y : ℤ) : Bool :=
  decide (0 ≤ x) && decide (x < cv.w) && decide (0 ≤ y) && decide (y < cv.h)

/-- Clipped drawing on the RGBA overlay. -/
def paintA (cv : CanvasA) (reg : ℤ → ℤ → Bool) (c : ColorA) : CanvasA :=
  { cv with pix := fun x y => if cv.inB x y && reg x y then c else cv.pix x y }

/-- Rasterization region of draw.rectangle with fill: PIL rectangles
include both corners. -/
def rectRegion (x0 y0 x1 y1 : ℤ) (x y : ℤ) : Bool :=
  decide (x0 ≤ x) && decide (x ≤ x1) && decide (y0 ≤ y) && decide (y ≤ y1)

/-- Rasterization region of draw.rectangle with outline of width wd:
the border band of the inclusive rectangle. -/
def outlineRegion (x0 y0 x1 y1 wd : ℤ) (x y : ℤ) : Bool :=
  rectRegion x0 y0 x1 y1 x y &&
    (decide (x < x0 + wd) || decide (x1 - wd < x) ||
     decide (y < y0 + wd) || decide (y1 - wd < y))

/-- Rasterization region of draw.ellipse with fill: the pixels of the
bounding box satisfying the inscribed-ellipse inequality. -/
def ellipseRegion (x0 y0 x1 y1 : ℤ) (x y : ℤ) : Bool :=
  rectRegion x0 y0 x1 y1 x y &&
    decide ((2*x - (x0+x1))^2 * (y1-y0)^2 + (2*y - (y0+y1))^2 * (x1-x0)^2
            ≤ (x1-x0)^2 * (y1-y0)^2)

/-- Rasterization region of draw.line from p to q (width 1): bounding
box pixels whose doubled distance-from-the-line cross product is within
the dominant extent.  For a horizontal line this is exactly the row. -/
def segRegion (px py qx qy : ℤ) (x y : ℤ) : Bool :=
  decide (min px qx ≤ x) && decide (x ≤ max px qx) &&
  decide (min py qy ≤ y) && decide (y ≤ max py qy) &&
  decide (2 * ((x - px) * (qy - py) - (y - py) * (qx - px)).natAbs
          ≤ max (qx - px).natAbs (qy - py).natAbs)

/-! ## Stage 1: background gradient (source lines 19-25) -/

/-- purple = int(60 * (1 - y / height)). -/
def gradPurple (height : ℤ) (y : ℕ) : ℕ := floorNN (60 * (1 - (y : ℚ) / (height : ℚ)))

/-- blue = int(30 + 40 * (y / height)). -/
def gradBlue (height : ℤ) (y : ℕ) : ℕ := floorNN (30 + 40 * ((y : ℚ) / (height : ℚ)))

/-- color = (purple + 20, 10, blue). -/
def gradColor (height : ℤ) (y : ℕ) : Color := ⟨gradPurple height y + 20, 10, gradBlue height y⟩

/-- Background color of Image.new: dark blue (10, 10, 30). -/
def bgColor : Color := ⟨10, 10, 30⟩

/-- The gradient stage: for y in range(height), draw.line((0,y)-(width,y)). -/
def gradientStage (w h : ℤ) (cv : Canvas) : Canvas :=
  (List.range h.toNat).foldl
    (fun c (y : ℕ) => paint c (segRegion 0 (y : ℤ) w (y : ℤ)) (gradColor h y)) cv

/-! ## Stage 2 and 3: buildings and windows (source lines 27-62) -/

/-- The random draws consumed for one building: bx, by (byv here, by is
reserved in Lean), bw, the base color, and per window cell the
random.random() value wu and the random.choice index wc. -/
structure BuildingR where
  bx : ℤ
  byv : ℤ
  bw : ℤ
  base : Color
  wu : ℕ → ℕ → ℚ
  wc : ℕ → ℕ → ℕ

/-- bh = height - by. -/
def BuildingR.bh (b : BuildingR) (h : ℤ) : ℤ := h - b.byv

/-- Right edge bx + bw of the building rectangle. -/
def BuildingR.right (b : BuildingR) : ℤ := b.bx + b.bw

/-- Bottom edge by + bh of the building rectangle. -/
def BuildingR.bottom (b : BuildingR) (h : ℤ) : ℤ := b.byv + b.bh h

/-- window_rows = bh // 20. -/
def windowRows (b : BuildingR) (h : ℤ) : ℕ := ((b.bh h) / 20).toNat

/-- window_cols = bw // 15. -/
def windowCols (b : BuildingR) : ℕ := (b.bw / 15).toNat

/-- The six-entry neon palette of the window stage. -/
def neon_colors : List Color :=
  [⟨0, 255, 255⟩, ⟨255, 0, 255⟩, ⟨255, 255, 0⟩,
   ⟨0, 255, 100⟩, ⟨255, 100, 0⟩, ⟨100, 100, 255⟩]

/-- wx = bx + col*15 + 5, wy = by + row*20 + 5, rectangle to (wx+8, wy+12). -/
def windowRect (b : BuildingR) (row col : ℕ) : ℤ × ℤ × ℤ × ℤ :=
  (b.bx + (col : ℤ) * 15 + 5, b.byv + (row : ℤ) * 20 + 5,
   b.bx + (col : ℤ) * 15 + 5 + 8, b.byv + (row : ℤ) * 20 + 5 + 12)

/-- The lit test of one window cell: random.random() > 0.3. -/
def windowLit (u : ℚ) : Bool := decide ((3 / 10 : ℚ) < u)

/-- One window cell: draw the window rectangle when lit, else no call. -/
def drawWindowCell (cv : Canvas) (b : BuildingR) (row col : ℕ) : Canvas :=
  if windowLit (b.wu row col) then
    paint cv
      (rectRegion (windowRect b row col).1 (windowRect b row col).2.1
        (windowRect b row col).2.2.1 (windowRect b row col).2.2.2)
      (neon_colors.getD (b.wc row col) ⟨0, 255, 255⟩)
  else cv

/-- The nested window loops of one building. -/
def drawBuildingWindows (cv : Canvas) (b : BuildingR) (h : ℤ) : Canvas :=
  (List.range (windowRows b h)).foldl
    (fun c row =>
      (List.range (windowCols b)).foldl (fun c2 col => drawWindowCell c2 b row col) c)
    cv

/-- One building: the filled base rectangle, then its windows. -/
def drawBuilding (cv : Canvas) (b : BuildingR) (h : ℤ) : Canvas :=
  drawBuildingWindows
    (paint cv (rectRegion b.bx b.byv (b.bx + b.bw) (b.byv + b.bh h)) b.base) b h

/-- building_count = 15. -/
def buildingsStage (h : ℤ) (bs : ℕ → BuildingR) (cv : Canvas) : Canvas :=
  (List.range 15).foldl (fun c i => drawBuilding c (bs i) h) cv

/-! ## Stage 4: flying cars (source lines 64-79) -/

/-- The random draws of one flying car: center, palette index, trail length. -/
structure CarR where
  cx : ℤ
  cy : ℤ
  ci : ℕ
  tlen : ℕ

/-- The three-entry car color list (magenta, cyan, yellow). -/
def car_colors : List Color := [⟨255, 0, 255⟩, ⟨0, 255, 255⟩, ⟨255, 255, 0⟩]

/-- trail_color = tuple(int(c * alpha * 0.5)) with alpha = 1 - j/trail_length. -/
def trailColor (c : Color) (tlen j : ℕ) : Color :=
  ⟨floorNN ((c.r : ℚ) * (1 - (j : ℚ) / (tlen : ℚ)) * (1 / 2)),
   floorNN ((c.g : ℚ) * (1 - (j : ℚ) / (tlen : ℚ)) * (1 / 2)),
   floorNN ((c.b : ℚ) * (1 - (j : ℚ) / (tlen : ℚ)) * (1 / 2))⟩

/-- One car: the body ellipse, then the fading trail ellipses. -/
def drawCar (cv : Canvas) (c : CarR) : Canvas :=
  let col := car_colors.getD c.ci ⟨255, 0, 255⟩
  let body := paint cv (ellipseRegion (c.cx - 3) (c.cy - 2) (c.cx + 3) (c.cy + 2)) col
  (List.range c.tlen).foldl
    (fun cv2 (j : ℕ) =>
      paint cv2
        (ellipseRegion (c.cx - (j : ℤ) - 1) (c.cy - 1) (c.cx - (j : ℤ) + 1) (c.cy + 1))
        (trailColor col c.tlen j))
    body

/-- car_count = 8. -/
def carsStage (cs : ℕ → CarR) (cv : Canvas) : Canvas :=
  (List.range 8).foldl (fun c i => drawCar c (cs i)) cv

/-! ## Stage 5: neon signs (source lines 81-95) -/

/-- The random draws of one neon sign: position and palette index. -/
structure SignR where
  sx : ℤ
  sy : ℤ
  si : ℕ

/-- The three-entry sign color list (magenta, cyan, yellow). -/
def sign_colors : List Color := [⟨255, 0, 255⟩, ⟨0, 255, 255⟩, ⟨255, 255, 0⟩]

/-- The sign rectangle (sx, sy, sx+60, sy+20). -/
def signRect (s : SignR) : ℤ × ℤ × ℤ × ℤ := (s.sx, s.sy, s.sx + 60, s.sy + 20)

/-- Brightness factor of glow ring k: 0.8 - glow * 0.2. -/
def glowFactor (k : ℕ) : ℚ := 8 / 10 - (k : ℚ) * (2 / 10)

/-- glow_color = tuple(int(c * (0.8 - glow * 0.2))). -/
def glowColor (c : Color) (k : ℕ) : Color :=
  ⟨floorNN ((c.r : ℚ) * glowFactor k),
   floorNN ((c.g : ℚ) * glowFactor k),
   floorNN ((c.b : ℚ) * glowFactor k)⟩

/-- Glow ring rectangle k: (sx - glow, sy - glow, sx+60+glow, sy+20+glow). -/
def glowRingRect (s : SignR) (k : ℕ) : ℤ × ℤ × ℤ × ℤ :=
  (s.sx - (k : ℤ), s.sy - (k : ℤ), s.sx + 60 + (k : ℤ), s.sy + 20 + (k : ℤ))

/-- A rectangle grown outward by k pixels on every side. -/
def expandRect (r : ℤ × ℤ × ℤ × ℤ) (k : ℤ) : ℤ × ℤ × ℤ × ℤ :=
  (r.1 - k, r.2.1 - k, r.2.2.1 + k, r.2.2.2 + k)

/-- One sign: outline of width 2, then for glow in range(3) an outline
of width 1 on the grown rectangle with the dimmed color. -/
def drawSign (cv : Canvas) (s : SignR) : Canvas :=
  let col := sign_colors.getD s.si ⟨255, 0, 255⟩
  let c1 := paint cv (outlineRegion s.sx s.sy (s.sx + 60) (s.sy + 20) 2) col
  (List.range 3).foldl
    (fun c k =>
      paint c
        (outlineRegion (glowRingRect s k).1 (glowRingRect s k).2.1
          (glowRingRect s k).2.2.1 (glowRingRect s k).2.2.2 1)
        (glowColor col k))
    c1

/-- sign_count = 6. -/
def signsStage (ss : ℕ → SignR) (cv : Canvas) : Canvas :=
  (List.range 6).foldl (fun c i => drawSign c (ss i)) cv

/-! ## Stage 6: rain (source lines 97-103) -/

/-- The random draws of one rain streak. -/
structure RainR where
  rx : ℤ
  ry : ℤ

/-- rain_color[:3] = (100, 150, 200). -/
def rain_color : Color := ⟨100, 150, 200⟩

/-- The second endpoint (rx - 2, ry + 15) of a rain streak. -/
def rainSegEnd (r : RainR) : ℤ × ℤ := (r.rx - 2, r.ry + 15)

/-- One rain streak: draw.line from (rx, ry) to (rx-2, ry+15). -/
def drawRain (cv : Canvas) (r : RainR) : Canvas :=
  paint cv (segRegion r.rx r.ry (rainSegEnd r).1 (rainSegEnd r).2) rain_color

/-- rain_lines = 200. -/
def rainStage (rs : ℕ → RainR) (cv : Canvas) : Canvas :=
  (List.range 200).foldl (fun c i => drawRain c (rs i)) cv

/-! ## Stage 7: atmospheric glow and compositing (source lines 105-123) -/

/-- The random draws of one glow center. -/
structure GlowR where
  gx : ℤ
  gy : ℤ
  radius : ℕ

/-- The ring radii of range(radius, 0, -5). -/
def ringList (radius : ℕ) : List ℕ :=
  (List.range ((radius + 4) / 5)).map (fun i => radius - 5 * i)

/-- alpha = int(30 * (radius - r) / radius). -/
def glowAlpha (radius r : ℕ) : ℕ :=
  floorNN (30 * ((radius : ℚ) - (r : ℚ)) / (radius : ℚ))

/-- One glow center: filled ellipses of decreasing radius on the overlay,
each with color (255, 100, 255, alpha). -/
def drawGlow (cv : CanvasA) (g : GlowR) : CanvasA :=
  (ringList g.radius).foldl
    (fun c (r : ℕ) =>
      paintA c
        (ellipseRegion (g.gx - (r : ℤ)) (g.gy - (r : ℤ)) (g.gx + (r : ℤ)) (g.gy + (r : ℤ)))
        ⟨255, 100, 255, glowAlpha g.radius r⟩)
    cv

/-- The glow overlay: a transparent RGBA layer with 10 glow centers. -/
def glowStage (w h : ℤ) (gs : ℕ → GlowR) : CanvasA :=
  (List.range 10).foldl (fun c i => drawGlow c (gs i)) (CanvasA.new w h ⟨0, 0, 0, 0⟩)

/-- Per-channel over-compositing with rounding: round((o*a + b*(255-a))/255),
the interface the spec documents for Image.alpha_composite followed by
conversion back to RGB. -/
def compCh (b o a : ℕ) : ℕ := (o * a + b * (255 - a) + 127) / 255

/-- Alpha-composite the RGBA overlay over the RGB base. -/
def composite (base : Canvas) (over : CanvasA) : Canvas :=
  { base with
    pix := fun x y =>
      ⟨compCh (base.pix x y).r (over.pix x y).r (over.pix x y).a,
       compCh (base.pix x y).g (over.pix x y).g (over.pix x y).a,
       compCh (base.pix x y).b (over.pix x y).b (over.pix x y).a⟩ }

/-! ## Stage 8: post-process (source lines 125-126 and 134-135) -/

/-- A convolution kernel: offsets with nonnegative natural weights.
GaussianBlur is such a kernel, normalized by the weight sum. -/
abbrev Kernel : Type := List ((ℤ × ℤ) × ℕ)

/-- Normalized nonnegative convolution: the model of the blur
post-process (an external library operation). -/
def gaussianBlurModel (K : Kernel) (cv : Canvas) : Canvas :=
  { cv with
    pix := fun x y =>
      let s := (K.map (fun p => p.2)).sum
      if s = 0 then cv.pix x y
      else
        ⟨(K.map (fun p => p.2 * (cv.pix (x + p.1.1) (y + p.1.2)).r)).sum / s,
         (K.map (fun p => p.2 * (cv.pix (x + p.1.1) (y + p.1.2)).g)).sum / s,
         (K.map (fun p => p.2 * (cv.pix (x + p.1.1) (y + p.1.2)).b)).sum / s⟩ }

/-- Saturating clamp of a signed channel value to [0, 255]: the uint8
saturation the image library applies on sharpening. -/
def clamp255 (v : ℤ) : ℕ := (min v 255).toNat

/-- UnsharpMask model: amount 150 percent over a blurred companion, with
uint8 saturation (an external library operation). -/
def unsharpModel (base blurred : Canvas) : Canvas :=
  { base with
    pix := fun x y =>
      ⟨clamp255 ((base.pix x y).r + (3 * ((base.pix x y).r - (blurred.pix x y).r)) / 2),
       clamp255 ((base.pix x y).g + (3 * ((base.pix x y).g - (blurred.pix x y).g)) / 2),
       clamp255 ((base.pix x y).b + (3 * ((base.pix x y).b - (blurred.pix x y).b)) / 2)⟩ }

/-! ## The full pipeline -/

/-- All random draws one call of create_cyberpunk_city consumes. -/
structure RandDraws where
  bld : ℕ → BuildingR
  car : ℕ → CarR
  sgn : ℕ → SignR
  rn : ℕ → RainR
  glw : ℕ → GlowR

/-- Canvas state after the gradient stage. -/
def afterGradient (w h : ℤ) : Canvas := gradientStage w h (Canvas.new w h bgColor)

/-- Canvas state after the buildings-and-windows stage. -/
def afterBuildings (w h : ℤ) (d : RandDraws) : Canvas :=
  buildingsStage h d.bld (afterGradient w h)

/-- Canvas state after the flying-cars stage. -/
def afterCars (w h : ℤ) (d : RandDraws) : Canvas := carsStage d.car (afterBuildings w h d)

/-- Canvas state after the neon-signs stage. -/
def afterSigns (w h : ℤ) (d : RandDraws) : Canvas := signsStage d.sgn (afterCars w h d)

/-- Canvas state after the rain stage. -/
def afterRain (w h : ℤ) (d : RandDraws) : Canvas := rainStage d.rn (afterSigns w h d)

/-- The composited canvas (base image with the glow overlay blended in). -/
def afterComposite (w h : ℤ) (d : RandDraws) : Canvas :=
  composite (afterRain w h d) (glowStage w h d.glw)

/-- The full render: all drawing stages, compositing, then the blur
post-process with kernel K. -/
def render (w h : ℤ) (d : RandDraws) (K : Kernel) : Canvas :=
  gaussianBlurModel K (afterComposite w h d)

/-- create_cyberpunk_city draws on a fixed 512 x 512 canvas. -/
def create_cyberpunk_city (d : RandDraws) (K : Kernel) : Canvas := render 512 512 d K

/-- The enhanced variant: UnsharpMask over the base render. -/
def enhancedVariant (d : RandDraws) (K : Kernel) (blurred : Canvas) : Canvas :=
  unsharpModel (create_cyberpunk_city d K) blurred

/-! ## Validity of the random draws (the randint ranges of the source) -/

/-- Draw validity for one building: bx = randint(0, width-80),
by = randint(height//3, height-50), bw = randint(30, 80), each base
channel randint(10, 30), each cell u = random.random() in [0,1) and the
choice index below the palette length. -/
def BuildingR.Valid (w h : ℤ) (b : BuildingR) : Prop :=
  0 ≤ b.bx ∧ b.bx ≤ w - 80 ∧ h / 3 ≤ b.byv ∧ b.byv ≤ h - 50 ∧
  30 ≤ b.bw ∧ b.bw ≤ 80 ∧
  10 ≤ b.base.r ∧ b.base.r ≤ 30 ∧ 10 ≤ b.base.g ∧ b.base.g ≤ 30 ∧
  10 ≤ b.base.b ∧ b.base.b ≤ 30 ∧
  (∀ row col, 0 ≤ b.wu row col ∧ b.wu row col < 1 ∧ b.wc row col < 6)

/-- Draw validity for one car: cx = randint(0, width) (inclusive!),
cy = randint(height//4, height//2), a choice index below 3, and
trail_length = randint(15, 30). -/
def CarR.Valid (w h : ℤ) (c : CarR) : Prop :=
  0 ≤ c.cx ∧ c.cx ≤ w ∧ h / 4 ≤ c.cy ∧ c.cy ≤ h / 2 ∧ c.ci < 3 ∧
  15 ≤ c.tlen ∧ c.tlen ≤ 30

/-- Draw validity for one sign: sx = randint(50, width-100),
sy = randint(height//3, height//2), a choice index below 3. -/
def SignR.Valid (w h : ℤ) (s : SignR) : Prop :=
  50 ≤ s.sx ∧ s.sx ≤ w - 100 ∧ h / 3 ≤ s.sy ∧ s.sy ≤ h / 2 ∧ s.si < 3

/-- Draw validity for one rain streak: rx = randint(0, width),
ry = randint(0, height-50). -/
def RainR.Valid (w h : ℤ) (r : RainR) : Prop :=
  0 ≤ r.rx ∧ r.rx ≤ w ∧ 0 ≤ r.ry ∧ r.ry ≤ h - 50

/-- Draw validity for one glow center: gx = randint(0, width),
gy = randint(0, height//2), radius = randint(30, 80). -/
def GlowR.Valid (w h : ℤ) (g : GlowR) : Prop :=
  0 ≤ g.gx ∧ g.gx ≤ w ∧ 0 ≤ g.gy ∧ g.gy ≤ h / 2 ∧
  30 ≤ g.radius ∧ g.radius ≤ 80

/-- Validity of a whole draw record. -/
def RandDraws.Valid (w h : ℤ) (d : RandDraws) : Prop :=
  (∀ i, (d.bld i).Valid w h) ∧ (∀ i, (d.car i).Valid w h) ∧
  (∀ i, (d.sgn i).Valid w h) ∧ (∀ i, (d.rn i).Valid w h) ∧
  (∀ i, (d.glw i).Valid w h)

/-! ## Concrete draw records used to instantiate the theorems -/

/-- A concrete building draw with the largest legal right edge. -/
def b0 : BuildingR := ⟨432, 170, 80, ⟨10, 10, 10⟩, fun _ _ => 0, fun _ _ => 0⟩

/-- A concrete sign draw at the smallest legal position. -/
def sign0 : SignR := ⟨50, 170, 0⟩

/-- A concrete full draw record, valid at 512 x 512. -/
def d0 : RandDraws :=
  ⟨fun _ => b0, fun _ => ⟨0, 128, 0, 15⟩, fun _ => sign0,
   fun _ => ⟨0, 0⟩, fun _ => ⟨0, 0, 30⟩⟩

/-- A concrete one-tap blur kernel. -/
def K0 : Kernel := [((0, 0), 1)]

/-- Sum of the three channels: the brightness order used to compare the
glow rings of a sign. -/
def Color.brightness (c : Color) : ℕ := c.r + c.g + c.b

/-- Predecessor of glow ring k in the claimed reading: the sign outline
for the first ring, the previous ring after that. -/
def ringPred (s : SignR) : ℕ → ℤ × ℤ × ℤ × ℤ
  | 0 => signRect s
  | k + 1 => glowRingRect s k

/-- The neon-sign glow claim as stated: every one of the 3 rings is the
1-pixel outward expansion of its predecessor. -/
def claimC7 (s : SignR) : Prop := ∀ k, k < 3 → glowRingRect s k = expandRect (ringPred s k) 1

/-- The building-bounds claim as stated: edges bounded by the last valid
pixel indices w - 1 and h - 1. -/
def claimC3 (w h : ℤ) (b : BuildingR) : Prop :=
  0 ≤ b.bx ∧ b.right ≤ w - 1 ∧ h / 3 ≤ b.byv ∧ b.byv ≤ h - 50 ∧ b.bottom h ≤ h - 1

/-! ## The dimension-checked renderer (randint range preconditions)

The shipped function takes no dimension arguments: width and height are
the locals width, height = 512, 512.  renderChecked is the body
parameterized by the requested dimensions, together with the range
checks the random module performs: randint(a, b) raises ValueError when
a > b.  It returns the stage names completed before the first failing
check, and the canvas when no check fails. -/

/-- Stage names of the pipeline in source order. -/
def allStages : List String :=
  ["canvas", "gradient", "buildings", "cars", "signs", "rain", "glow", "composite", "blur"]

/-- The renderer parameterized by dimensions with randint range checks. -/
def renderChecked (w h : ℤ) (d : RandDraws) (K : Kernel) : List String × Option Canvas :=
  if 0 ≤ w - 80 ∧ h / 3 ≤ h - 50 then
    if 0 ≤ w ∧ h / 4 ≤ h / 2 then
      if 50 ≤ w - 100 ∧ h / 3 ≤ h / 2 then
        if 0 ≤ w ∧ 0 ≤ h - 50 then
          if 0 ≤ w ∧ 0 ≤ h / 2 then
            (allStages, some (render w h d K))
          else (["canvas", "gradient", "buildings", "cars", "signs", "rain"], none)
        else (["canvas", "gradient", "buildings", "cars", "signs"], none)
      else (["canvas", "gradient", "buildings", "cars"], none)
    else (["canvas", "gradient", "buildings"], none)
  else (["canvas", "gradient"], none)

/-! ## Observable-effects model of the entry point (source lines 128-152) -/

/-- File path of the base output. -/
def basePath : String := "ai-output/cyberpunk-city.png"

/-- File path of the enhanced output. -/
def enhancedPath : String := "ai-output/cyberpunk-city-enhanced.png"

/-- One observable step of the entry point. -/
inductive Act where
  | mkdirOut : Act
  | drawAll : Act
  | saveFile : String → Act
  | printLine : String → Act
deriving DecidableEq

/-- Observable state: files written and lines printed, in order. -/
structure World where
  files : List String
  stdout : List String
deriving DecidableEq

/-- Effect of one step on the observable state. -/
def stepAct (w : World) (a : Act) : World :=
  match a with
  | Act.mkdirOut => w
  | Act.drawAll => w
  | Act.saveFile p => ⟨w.files ++ [p], w.stdout⟩
  | Act.printLine s => ⟨w.files, w.stdout ++ [s]⟩

/-- The observable steps of one run of the entry point, in source order:
the progress print and directory creation, the drawing stages, the base
save and its progress line, the enhanced save and its line, then the
success summary of the __main__ block. -/
def mainActs : List Act :=
  [Act.printLine "Creating cyberpunk city artwork...",
   Act.mkdirOut,
   Act.drawAll,
   Act.saveFile basePath,
   Act.printLine "Cyberpunk city artwork saved to: ai-output/cyberpunk-city.png",
   Act.saveFile enhancedPath,
   Act.printLine "Enhanced version saved to: ai-output/cyberpunk-city-enhanced.png",
   Act.printLine "Success! Cyberpunk city artwork created.",
   Act.printLine "Generated files:",
   Act.printLine "  - ai-output/cyberpunk-city.png",
   Act.printLine "  - ai-output/cyberpunk-city-enhanced.png"]

/-- The error line printed by the except branch. -/
def errLine : String := "Error creating artwork"

/-- The diagnostic trace printed by traceback.print_exc(). -/
def traceLine : String := "Traceback (most recent call last)"

/-- The success line printed only when no exception was raised. -/
def successLine : String := "Success! Cyberpunk city artwork created."

/-- Run the entry point.  failAt = some k models step k raising an
exception: the steps before k run, step k and everything after it are
skipped, and the except branch prints the error line and the trace.
failAt = none is the exception-free run. -/
def runMain (failAt : Option ℕ) : World :=
  match failAt with
  | none => mainActs.foldl stepAct ⟨[], []⟩
  | some k =>
    let w := (mainActs.take k).foldl stepAct ⟨[], []⟩
    ⟨w.files, w.stdout ++ [errLine, traceLine]⟩

/-! ## Every pixel of every canvas state is a legal color -/

/-- Every pixel of the (total) pixel function is a legal color. -/
def CanvasInRange (cv : Canvas) : Prop := ∀ x y, (cv.pix x y).InRange

/-- Every pixel of the overlay, alpha included, is a legal color. -/
def CanvasAInRange (cv : CanvasA) : Prop := ∀ x y, (cv.pix x y).InRange

end Cyberpunk

namespace Cyberpunk

/-! ## Generic helper lemmas -/

theorem foldl_preserves {α β : Type} (P : α → Prop) (f : α → β → α) (l : List β) (a : α)
    (h : ∀ x b, b ∈ l → P x → P (f x b)) (ha : P a) : P (l.foldl f a) := by
  induction l generalizing a with
  | nil => exact ha
  | cons b t ih =>
    simp only [List.foldl_cons]
    exact ih (f a b) (fun x c hc hx => h x c (List.mem_cons_of_mem _ hc) hx)
      (h a b (List.mem_cons_self _ _) ha)

theorem floorNN_le_of_le {q : ℚ} {n : ℕ} (h : q ≤ (n : ℚ)) : floorNN q ≤ n := by
  unfold floorNN
  have h1 : ⌊q⌋ ≤ ⌊(n : ℚ)⌋ := Int.floor_le_floor h
  rw [Int.floor_natCast] at h1
  omega

theorem floorNN_mono {q r : ℚ} (h : q ≤ r) : floorNN q ≤ floorNN r := by
  unfold floorNN
  have := Int.floor_le_floor h
  omega

/-- Scaling a legal channel by a factor at most 1 keeps it legal. -/
theorem floorNN_mul_factor_le {c : ℕ} {f : ℚ} (hc : c ≤ 255) (hf : f ≤ 1) :
    floorNN ((c : ℚ) * f) ≤ 255 := by
  refine floorNN_le_of_le (le_trans ?_ (by exact_mod_cast hc : (c : ℚ) ≤ (255 : ℕ)))
  calc (c : ℚ) * f ≤ (c : ℚ) * 1 :=
        mul_le_mul_of_nonneg_left hf (by positivity)
    _ = (c : ℚ) := mul_one _

theorem paint_w (cv : Canvas) (reg : ℤ → ℤ → Bool) (c : Color) : (paint cv reg c).w = cv.w := rfl

theorem paint_h (cv : Canvas) (reg : ℤ → ℤ → Bool) (c : Color) : (paint cv reg c).h = cv.h := rfl

theorem paint_pix (cv : Canvas) (reg : ℤ → ℤ → Bool) (c : Color) (x y : ℤ) :
    (paint cv reg c).pix x y = if (cv.inB x y && reg x y) = true then c else cv.pix x y := rfl

theorem paint_pix_of_false {cv : Canvas} {reg : ℤ → ℤ → Bool} {c : Color} {x y : ℤ}
    (h : (cv.inB x y && reg x y) = false) : (paint cv reg c).pix x y = cv.pix x y := by
  rw [paint_pix, h]
  simp

theorem paint_inRange {cv : Canvas} {c : Color} (reg : ℤ → ℤ → Bool)
    (hcv : CanvasInRange cv) (hc : c.InRange) : CanvasInRange (paint cv reg c) := by
  intro x y
  rw [paint_pix]
  split
  · exact hc
  · exact hcv x y

theorem paintA_inRange {cv : CanvasA} {c : ColorA} (reg : ℤ → ℤ → Bool)
    (hcv : CanvasAInRange cv) (hc : c.InRange) : CanvasAInRange (paintA cv reg c) := by
  intro x y
  show ColorA.InRange (if (cv.inB x y && reg x y) = true then c else cv.pix x y)
  split
  · exact hc
  · exact hcv x y

theorem Canvas.new_inRange {w h : ℤ} {c : Color} (hc : c.InRange) :
    CanvasInRange (Canvas.new w h c) := fun _ _ => hc

/-- An element fetched from a list of legal colors (or the legal default)
is legal. -/
theorem getD_inRange {l : List Color} (hl : ∀ c ∈ l, c.InRange) {d : Color}
    (hd : d.InRange) (i : ℕ) : (l.getD i d).InRange := by
  induction l generalizing i with
  | nil => simpa [List.getD] using hd
  | cons a t ih =>
    cases i with
    | zero => simpa [List.getD] using hl a (List.mem_cons_self _ _)
    | succ j =>
      simp only [List.getD_cons_succ]
      exact ih (fun c hc => hl c (List.mem_cons_of_mem _ hc)) j

/-! ## Range facts for every color computation of the source -/

theorem gradPurple_le (h : ℤ) (hh : 0 < h) (y : ℕ) : gradPurple h y ≤ 60 := by
  unfold gradPurple
  refine floorNN_le_of_le ?_
  have h1 : (0 : ℚ) ≤ (y : ℚ) / (h : ℚ) := by positivity
  push_cast
  linarith

theorem gradBlue_le (h : ℤ) (hh : 0 < h) (y : ℕ) (hy : (y : ℤ) ≤ h) : gradBlue h y ≤ 70 := by
  unfold gradBlue
  refine floorNN_le_of_le ?_
  have hq : (0 : ℚ) < (h : ℚ) := by exact_mod_cast hh
  have h1 : (y : ℚ) / (h : ℚ) ≤ 1 := by
    rw [div_le_one hq]
    exact_mod_cast hy
  push_cast
  linarith

theorem gradColor_inRange (h : ℤ) (hh : 0 < h) (y : ℕ) (hy : (y : ℤ) ≤ h) :
    (gradColor h y).InRange := by
  refine ⟨?_, by simp [gradColor, Color.InRange], ?_⟩
  · have := gradPurple_le h hh y
    simp only [gradColor]
    omega
  · have := gradBlue_le h hh y hy
    simp only [gradColor]
    omega

theorem neon_colors_inRange : ∀ c ∈ neon_colors, c.InRange := by decide

theorem car_colors_inRange : ∀ c ∈ car_colors, c.InRange := by decide

theorem sign_colors_inRange : ∀ c ∈ sign_colors, c.InRange := by decide

theorem trailColor_inRange {c : Color} (hc : c.InRange) (tlen j : ℕ) :
    (trailColor c tlen j).InRange := by
  obtain ⟨h1, h2, h3⟩ := hc
  have hf : (1 - (j : ℚ) / (tlen : ℚ)) * (1 / 2) ≤ 1 := by
    have : (0 : ℚ) ≤ (j : ℚ) / (tlen : ℚ) := by positivity
    nlinarith
  refine ⟨?_, ?_, ?_⟩ <;>
    simpa [trailColor, mul_assoc] using
      floorNN_mul_factor_le (f := (1 - (j : ℚ) / (tlen : ℚ)) * (1 / 2)) (by assumption) hf

theorem glowFactor_le_one (k : ℕ) : glowFactor k ≤ 1 := by
  unfold glowFactor
  have : (0 : ℚ) ≤ (k : ℚ) * (2 / 10) := by positivity
  linarith

theorem glowColor_inRange {c : Color} (hc : c.InRange) (k : ℕ) : (glowColor c k).InRange := by
  obtain ⟨h1, h2, h3⟩ := hc
  exact ⟨floorNN_mul_factor_le h1 (glowFactor_le_one k),
    floorNN_mul_factor_le h2 (glowFactor_le_one k),
    floorNN_mul_factor_le h3 (glowFactor_le_one k)⟩

theorem glowAlpha_le (radius r : ℕ) : glowAlpha radius r ≤ 30 := by
  unfold glowAlpha
  refine floorNN_le_of_le ?_
  rcases Nat.eq_zero_or_pos radius with h0 | hpos
  · subst h0
    norm_num
  · have hq : (0 : ℚ) < (radius : ℚ) := by exact_mod_cast hpos
    rw [div_le_iff₀ hq]
    have : (0 : ℚ) ≤ (r : ℚ) := by positivity
    push_cast
    nlinarith

theorem compCh_le {b o a : ℕ} (hb : b ≤ 255) (ho : o ≤ 255) (ha : a ≤ 255) :
    compCh b o a ≤ 255 := by
  unfold compCh
  have h1 : o * a + b * (255 - a) + 127 ≤ 65152 := by
    have e1 : o * a ≤ 255 * a := Nat.mul_le_mul_right a ho
    have e2 : b * (255 - a) ≤ 255 * (255 - a) := Nat.mul_le_mul_right _ hb
    have e3 : 255 * a + 255 * (255 - a) = 65025 := by omega
    omega
  calc (o * a + b * (255 - a) + 127) / 255 ≤ 65152 / 255 := Nat.div_le_div_right h1
    _ = 255 := by norm_num

theorem clamp255_le (v : ℤ) : clamp255 v ≤ 255 := by
  unfold clamp255
  omega

/-! ## Dimension preservation: no drawing call ever changes the canvas size -/

theorem dims_foldl {β : Type} {f : Canvas → β → Canvas}
    (hf : ∀ cv b, (f cv b).w = cv.w ∧ (f cv b).h = cv.h) (l : List β) (cv : Canvas) :
    (l.foldl f cv).w = cv.w ∧ (l.foldl f cv).h = cv.h := by
  refine foldl_preserves (fun c => c.w = cv.w ∧ c.h = cv.h) f l cv ?_ ⟨rfl, rfl⟩
  intro x b _ hx
  exact ⟨(hf x b).1.trans hx.1, (hf x b).2.trans hx.2⟩

theorem dims_drawWindowCell (cv : Canvas) (b : BuildingR) (row col : ℕ) :
    (drawWindowCell cv b row col).w = cv.w ∧ (drawWindowCell cv b row col).h = cv.h := by
  unfold drawWindowCell
  split <;> exact ⟨rfl, rfl⟩

theorem dims_drawBuilding (cv : Canvas) (b : BuildingR) (h : ℤ) :
    (drawBuilding cv b h).w = cv.w ∧ (drawBuilding cv b h).h = cv.h := by
  unfold drawBuilding drawBuildingWindows
  refine dims_foldl ?_ _ _
  intro cv2 row
  refine dims_foldl ?_ _ _
  intro cv3 col
  exact dims_drawWindowCell cv3 b row col

set_option maxRecDepth 4000 in
theorem dims_drawCar (cv : Canvas) (c : CarR) :
    (drawCar cv c).w = cv.w ∧ (drawCar cv c).h = cv.h := by
  unfold drawCar
  dsimp only
  refine dims_foldl ?_ _ _
  intro cv2 j
  exact ⟨rfl, rfl⟩

set_option maxRecDepth 4000 in
theorem dims_drawSign (cv : Canvas) (s : SignR) :
    (drawSign cv s).w = cv.w ∧ (drawSign cv s).h = cv.h := by
  unfold drawSign
  dsimp only
  refine dims_foldl ?_ _ _
  intro cv2 k
  exact ⟨rfl, rfl⟩

theorem dims_gradientStage (w h : ℤ) (cv : Canvas) :
    (gradientStage w h cv).w = cv.w ∧ (gradientStage w h cv).h = cv.h := by
  unfold gradientStage
  refine dims_foldl ?_ _ _
  intro cv2 y
  exact ⟨rfl, rfl⟩

theorem dims_buildingsStage (h : ℤ) (bs : ℕ → BuildingR) (cv : Canvas) :
    (buildingsStage h bs cv).w = cv.w ∧ (buildingsStage h bs cv).h = cv.h :=
  dims_foldl (fun cv2 i => dims_drawBuilding cv2 (bs i) h) _ _

theorem dims_carsStage (cs : ℕ → CarR) (cv : Canvas) :
    (carsStage cs cv).w = cv.w ∧ (carsStage cs cv).h = cv.h :=
  dims_foldl (fun cv2 i => dims_drawCar cv2 (cs i)) _ _

theorem dims_signsStage (ss : ℕ → SignR) (cv : Canvas) :
    (signsStage ss cv).w = cv.w ∧ (signsStage ss cv).h = cv.h :=
  dims_foldl (fun cv2 i => dims_drawSign cv2 (ss i)) _ _

theorem dims_rainStage (rs : ℕ → RainR) (cv : Canvas) :
    (rainStage rs cv).w = cv.w ∧ (rainStage rs cv).h = cv.h := by
  unfold rainStage
  refine dims_foldl ?_ _ _
  intro cv2 i
  exact ⟨rfl, rfl⟩

theorem dims_gaussianBlurModel (K : Kernel) (cv : Canvas) :
    (gaussianBlurModel K cv).w = cv.w ∧ (gaussianBlurModel K cv).h = cv.h := ⟨rfl, rfl⟩

theorem dims_composite (base : Canvas) (over : CanvasA) :
    (composite base over).w = base.w ∧ (composite base over).h = base.h := ⟨rfl, rfl⟩

theorem dims_render (w h : ℤ) (d : RandDraws) (K : Kernel) :
    (render w h d K).w = w ∧ (render w h d K).h = h := by
  have e1 : (render w h d K).w = (afterComposite w h d).w :=
    (dims_gaussianBlurModel K (afterComposite w h d)).1
  have e2 : (render w h d K).h = (afterComposite w h d).h :=
    (dims_gaussianBlurModel K (afterComposite w h d)).2
  have f1 : (afterComposite w h d).w = (afterRain w h d).w :=
    (dims_composite (afterRain w h d) (glowStage w h d.glw)).1
  have f2 : (afterComposite w h d).h = (afterRain w h d).h :=
    (dims_composite (afterRain w h d) (glowStage w h d.glw)).2
  have h5 := dims_rainStage d.rn (afterSigns w h d)
  have h4 := dims_signsStage d.sgn (afterCars w h d)
  have h3 := dims_carsStage d.car (afterBuildings w h d)
  have h2 := dims_buildingsStage h d.bld (afterGradient w h)
  have h1 := dims_gradientStage w h (Canvas.new w h bgColor)
  have hw : (Canvas.new w h bgColor).w = w := rfl
  have hh : (Canvas.new w h bgColor).h = h := rfl
  exact ⟨(e1.trans f1).trans (h5.1.trans (h4.1.trans (h3.1.trans (h2.1.trans (h1.1.trans hw))))),
    (e2.trans f2).trans (h5.2.trans (h4.2.trans (h3.2.trans (h2.2.trans (h1.2.trans hh)))))⟩

/-! ## Every stage preserves the pixel-range invariant -/

theorem gradientStage_inRange {w h : ℤ} {cv : Canvas} (hh : 0 < h)
    (hcv : CanvasInRange cv) : CanvasInRange (gradientStage w h cv) := by
  refine foldl_preserves CanvasInRange _ _ _ ?_ hcv
  intro x y hy hx
  refine paint_inRange _ hx (gradColor_inRange h hh y ?_)
  have := List.mem_range.mp hy
  omega

theorem drawWindowCell_inRange {cv : Canvas} (b : BuildingR) (row col : ℕ)
    (hcv : CanvasInRange cv) : CanvasInRange (drawWindowCell cv b row col) := by
  unfold drawWindowCell
  split
  · exact paint_inRange _ hcv (getD_inRange neon_colors_inRange (by decide) _)
  · exact hcv

theorem drawBuilding_inRange {cv : Canvas} {b : BuildingR} (h : ℤ)
    (hbase : b.base.InRange) (hcv : CanvasInRange cv) :
    CanvasInRange (drawBuilding cv b h) := by
  unfold drawBuilding drawBuildingWindows
  refine foldl_preserves CanvasInRange _ _ _ ?_ (paint_inRange _ hcv hbase)
  intro x row _ hx
  refine foldl_preserves CanvasInRange _ _ _ ?_ hx
  intro x2 col _ hx2
  exact drawWindowCell_inRange b row col hx2

theorem buildingsStage_inRange {h : ℤ} {bs : ℕ → BuildingR} {cv : Canvas}
    (hbs : ∀ i, (bs i).base.InRange) (hcv : CanvasInRange cv) :
    CanvasInRange (buildingsStage h bs cv) := by
  refine foldl_preserves CanvasInRange _ _ _ ?_ hcv
  intro x i _ hx
  exact drawBuilding_inRange h (hbs i) hx

theorem drawCar_inRange {cv : Canvas} (c : CarR) (hcv : CanvasInRange cv) :
    CanvasInRange (drawCar cv c) := by
  unfold drawCar
  have hcol : (car_colors.getD c.ci ⟨255, 0, 255⟩).InRange :=
    getD_inRange car_colors_inRange (by decide) _
  refine foldl_preserves CanvasInRange _ _ _ ?_ (paint_inRange _ hcv hcol)
  intro x j _ hx
  exact paint_inRange _ hx (trailColor_inRange hcol _ _)

theorem carsStage_inRange {cs : ℕ → CarR} {cv : Canvas} (hcv : CanvasInRange cv) :
    CanvasInRange (carsStage cs cv) := by
  refine foldl_preserves CanvasInRange _ _ _ ?_ hcv
  intro x i _ hx
  exact drawCar_inRange (cs i) hx

theorem drawSign_inRange {cv : Canvas} (s : SignR) (hcv : CanvasInRange cv) :
    CanvasInRange (drawSign cv s) := by
  unfold drawSign
  have hcol : (sign_colors.getD s.si ⟨255, 0, 255⟩).InRange :=
    getD_inRange sign_colors_inRange (by decide) _
  refine foldl_preserves CanvasInRange _ _ _ ?_ (paint_inRange _ hcv hcol)
  intro x k _ hx
  exact paint_inRange _ hx (glowColor_inRange hcol k)

theorem signsStage_inRange {ss : ℕ → SignR} {cv : Canvas} (hcv : CanvasInRange cv) :
    CanvasInRange (signsStage ss cv) := by
  refine foldl_preserves CanvasInRange _ _ _ ?_ hcv
  intro x i _ hx
  exact drawSign_inRange (ss i) hx

theorem rainStage_inRange {rs : ℕ → RainR} {cv : Canvas} (hcv : CanvasInRange cv) :
    CanvasInRange (rainStage rs cv) := by
  refine foldl_preserves CanvasInRange _ _ _ ?_ hcv
  intro x i _ hx
  exact paint_inRange _ hx (by decide)

theorem glowStage_inRange (w h : ℤ) (gs : ℕ → GlowR) :
    CanvasAInRange (glowStage w h gs) := by
  refine foldl_preserves CanvasAInRange _ _ _ ?_ ?_
  swap
  · intro x y
    exact ⟨Nat.zero_le 255, Nat.zero_le 255, Nat.zero_le 255, Nat.zero_le 255⟩
  intro x i _ hx
  unfold drawGlow
  refine foldl_preserves CanvasAInRange _ _ _ ?_ hx
  intro x2 r _ hx2
  refine paintA_inRange _ hx2 ⟨by norm_num, by norm_num, by norm_num, ?_⟩
  exact le_trans (glowAlpha_le _ _) (by norm_num)

theorem composite_inRange {base : Canvas} {over : CanvasA}
    (hb : CanvasInRange base) (ho : CanvasAInRange over) :
    CanvasInRange (composite base over) := by
  intro x y
  obtain ⟨hr, hg, hbb⟩ := hb x y
  obtain ⟨or, og, ob, oa⟩ := ho x y
  exact ⟨compCh_le hr or oa, compCh_le hg og oa, compCh_le hbb ob oa⟩

/-- A weight-scaled sum of legal channels is bounded by the weight sum
scaled by 255. -/
theorem sum_weighted_le (K : Kernel) (f : (ℤ × ℤ) × ℕ → ℕ) (hf : ∀ p ∈ K, f p ≤ 255) :
    (K.map (fun p => p.2 * f p)).sum ≤ 255 * (K.map (fun p => p.2)).sum := by
  induction K with
  | nil => simp
  | cons a t ih =>
    simp only [List.map_cons, List.sum_cons]
    have h1 : a.2 * f a ≤ a.2 * 255 := Nat.mul_le_mul_left _ (hf a (List.mem_cons_self _ _))
    have h2 := ih (fun p hp => hf p (List.mem_cons_of_mem _ hp))
    calc a.2 * f a + (t.map (fun p => p.2 * f p)).sum
        ≤ a.2 * 255 + 255 * (t.map (fun p => p.2)).sum := Nat.add_le_add h1 h2
      _ = 255 * (a.2 + (t.map (fun p => p.2)).sum) := by ring

theorem gaussianBlurModel_inRange {cv : Canvas} (K : Kernel) (hcv : CanvasInRange cv) :
    CanvasInRange (gaussianBlurModel K cv) := by
  intro x y
  unfold gaussianBlurModel
  simp only
  split
  · exact hcv x y
  · rename_i hs
    have hdiv : ∀ f : (ℤ × ℤ) × ℕ → ℕ, (∀ p ∈ K, f p ≤ 255) →
        (K.map (fun p => p.2 * f p)).sum / (K.map (fun p => p.2)).sum ≤ 255 := by
      intro f hf
      refine Nat.div_le_of_le_mul' ?_
      rw [Nat.mul_comm]
      exact sum_weighted_le K f hf
    exact ⟨hdiv _ (fun p _ => (hcv _ _).1), hdiv _ (fun p _ => (hcv _ _).2.1),
      hdiv _ (fun p _ => (hcv _ _).2.2)⟩

theorem unsharpModel_inRange (base blurred : Canvas) :
    CanvasInRange (unsharpModel base blurred) := by
  intro x y
  exact ⟨clamp255_le _, clamp255_le _, clamp255_le _⟩

/-! ## The canvas is in range after every stage of the pipeline -/

theorem afterGradient_inRange : CanvasInRange (afterGradient 512 512) :=
  gradientStage_inRange (by norm_num) (Canvas.new_inRange (by decide))

theorem BuildingR.Valid.base_inRange {w h : ℤ} {b : BuildingR} (hb : b.Valid w h) :
    b.base.InRange := by
  obtain ⟨-, -, -, -, -, -, -, h8, -, h10, -, h12, -⟩ := hb
  exact ⟨by omega, by omega, by omega⟩

theorem afterBuildings_inRange (d : RandDraws) (hd : d.Valid 512 512) :
    CanvasInRange (afterBuildings 512 512 d) :=
  buildingsStage_inRange (fun i => (hd.1 i).base_inRange) afterGradient_inRange

theorem afterCars_inRange (d : RandDraws) (hd : d.Valid 512 512) :
    CanvasInRange (afterCars 512 512 d) :=
  carsStage_inRange (afterBuildings_inRange d hd)

theorem afterSigns_inRange (d : RandDraws) (hd : d.Valid 512 512) :
    CanvasInRange (afterSigns 512 512 d) :=
  signsStage_inRange (afterCars_inRange d hd)

theorem afterRain_inRange (d : RandDraws) (hd : d.Valid 512 512) :
    CanvasInRange (afterRain 512 512 d) :=
  rainStage_inRange (afterSigns_inRange d hd)

theorem afterComposite_inRange (d : RandDraws) (hd : d.Valid 512 512) :
    CanvasInRange (afterComposite 512 512 d) :=
  composite_inRange (afterRain_inRange d hd) (glowStage_inRange 512 512 d.glw)

theorem render512_inRange (d : RandDraws) (K : Kernel) (hd : d.Valid 512 512) :
    CanvasInRange (render 512 512 d K) :=
  gaussianBlurModel_inRange K (afterComposite_inRange d hd)

/-! ## Validity of the concrete draw record -/

theorem b0_Valid : b0.Valid 512 512 := by
  refine ⟨by decide, by decide, by decide, by decide, by decide, by decide, by decide,
    by decide, by decide, by decide, by decide, by decide, fun row col => ?_⟩
  exact ⟨le_refl 0, by show (0 : ℚ) < 1; norm_num, by show (0 : ℕ) < 6; norm_num⟩

theorem d0_Valid : d0.Valid 512 512 :=
  ⟨fun _ => b0_Valid,
   fun _ => by show CarR.Valid 512 512 ⟨0, 128, 0, 15⟩; unfold CarR.Valid; decide,
   fun _ => by show SignR.Valid 512 512 sign0; unfold SignR.Valid; decide,
   fun _ => by show RainR.Valid 512 512 ⟨0, 0⟩; unfold RainR.Valid; decide,
   fun _ => by show GlowR.Valid 512 512 ⟨0, 0, 30⟩; unfold GlowR.Valid; decide⟩

/-! ## Claim C1 -/

/-- C1: in the single synthesis call create_cyberpunk_city, every pixel
of the canvas has all three channels within [0, 255] after every drawing
stage, after alpha-compositing and after the post-process steps, and no
intermediate color computation (gradient row color, building base,
window fill, trail scaling, sign glow ring, overlay glow ring,
compositing) produces a channel value outside that range. -/
theorem c1_every_pixel_in_range (d : RandDraws) (K : Kernel) (hd : d.Valid 512 512) :
    (CanvasInRange (afterGradient 512 512) ∧
     CanvasInRange (afterBuildings 512 512 d) ∧
     CanvasInRange (afterCars 512 512 d) ∧
     CanvasInRange (afterSigns 512 512 d) ∧
     CanvasInRange (afterRain 512 512 d) ∧
     CanvasAInRange (glowStage 512 512 d.glw) ∧
     CanvasInRange (afterComposite 512 512 d) ∧
     CanvasInRange (create_cyberpunk_city d K) ∧
     (∀ blurred : Canvas, CanvasInRange (enhancedVariant d K blurred))) ∧
    ((∀ y : ℕ, y ≤ 512 → (gradColor 512 y).InRange) ∧
     (∀ i, (d.bld i).base.InRange) ∧
     (∀ i row col, (neon_colors.getD ((d.bld i).wc row col) ⟨0, 255, 255⟩).InRange) ∧
     (∀ i j, (trailColor (car_colors.getD (d.car i).ci ⟨255, 0, 255⟩) (d.car i).tlen j).InRange) ∧
     (∀ i k, (glowColor (sign_colors.getD (d.sgn i).si ⟨255, 0, 255⟩) k).InRange) ∧
     (∀ i r, (ColorA.mk 255 100 255 (glowAlpha (d.glw i).radius r)).InRange) ∧
     (∀ b o a : ℕ, b ≤ 255 → o ≤ 255 → a ≤ 255 → compCh b o a ≤ 255)) := by
  constructor
  · refine ⟨afterGradient_inRange, afterBuildings_inRange d hd, afterCars_inRange d hd,
      afterSigns_inRange d hd, afterRain_inRange d hd, glowStage_inRange 512 512 d.glw,
      afterComposite_inRange d hd, render512_inRange d K hd, fun blurred => ?_⟩
    exact unsharpModel_inRange (create_cyberpunk_city d K) blurred
  · refine ⟨fun y hy => gradColor_inRange 512 (by norm_num) y (by exact_mod_cast hy),
      fun i => (hd.1 i).base_inRange,
      fun i row col => getD_inRange neon_colors_inRange (by decide) _,
      fun i j => trailColor_inRange (getD_inRange car_colors_inRange (by decide) _) _ _,
      fun i k => glowColor_inRange (getD_inRange sign_colors_inRange (by decide) _) k,
      fun i r => ⟨by norm_num, by norm_num, by norm_num, le_trans (glowAlpha_le _ _) (by norm_num)⟩,
      fun b o a hb ho ha => compCh_le hb ho ha⟩

/-- Witness for c1_every_pixel_in_range at the concrete draw record d0
and kernel K0. -/
theorem c1_every_pixel_in_range_witness :
    d0.Valid 512 512 ∧ CanvasInRange (create_cyberpunk_city d0 K0) :=
  ⟨d0_Valid, (c1_every_pixel_in_range d0 K0 d0_Valid).1.2.2.2.2.2.2.2.1⟩

/-! ## Claim C2 -/

/-- C2: the renderer is a deterministic function of the dimensions and
the stream of random draws: two invocations with identical parameters
and an identically seeded random source (hence identical draw streams
and blur kernel) produce identical canvases. -/
theorem c2_deterministic (w h : ℤ) (d1 d2 : RandDraws) (K1 K2 : Kernel)
    (hd : d1 = d2) (hK : K1 = K2) : render w h d1 K1 = render w h d2 K2 := by
  rw [hd, hK]

/-- Witness for c2_deterministic at the concrete draw record d0. -/
theorem c2_deterministic_witness :
    d0 = d0 ∧ K0 = K0 ∧ render 512 512 d0 K0 = render 512 512 d0 K0 :=
  ⟨rfl, rfl, c2_deterministic 512 512 d0 d0 K0 K0 rfl rfl⟩

/-! ## Claim C3 -/

/-- C3 counterexample: b0 = (bx 432, by 170, bw 80) is a draw every one
of whose values lies in its randint range, yet the claim fails on it:
its right edge bx + bw and its bottom edge by + bh both equal 512, which
exceeds the last valid pixel index 511. -/
theorem c3_counterexample : b0.Valid 512 512 ∧ ¬ claimC3 512 512 b0 :=
  ⟨b0_Valid, fun hcl => by
    have h2 : b0.right ≤ 512 - 1 := hcl.2.1
    revert h2
    decide⟩

/-- C3 amended: for every valid building draw, the left edge is
nonnegative, the right edge is at most the width 512 (it can equal 512,
one past the last index, and is clipped), the top edge lies in
[height // 3, height - 50] = [170, 462], and the bottom edge equals the
height 512 exactly (also clipped). -/
theorem c3_building_bounds (b : BuildingR) (hb : b.Valid 512 512) :
    0 ≤ b.bx ∧ b.right ≤ 512 ∧ 170 ≤ b.byv ∧ b.byv ≤ 462 ∧ b.bottom 512 = 512 := by
  obtain ⟨h1, h2, h3, h4, h5, h6, -⟩ := hb
  simp only [BuildingR.right, BuildingR.bottom, BuildingR.bh] at *
  omega

/-- Witness for c3_building_bounds at the concrete draw b0. -/
theorem c3_building_bounds_witness :
    b0.Valid 512 512 ∧
      (0 ≤ b0.bx ∧ b0.right ≤ 512 ∧ 170 ≤ b0.byv ∧ b0.byv ≤ 462 ∧ b0.bottom 512 = 512) :=
  ⟨b0_Valid, c3_building_bounds b0 b0_Valid⟩

/-! ## Claim C4 -/

/-- C4: for every building and every window grid cell with
row < bh // 20 and col < bw // 15, the window rectangle
(bx + col*15 + 5, by + row*20 + 5) to (wx + 8, wy + 12) lies entirely
inside the parent rectangle [bx, bx + bw] x [by, by + bh]. -/
theorem c4_window_inside_building (b : BuildingR) (h : ℤ) (row col : ℕ)
    (hrow : row < windowRows b h) (hcol : col < windowCols b) :
    b.bx ≤ (windowRect b row col).1 ∧
    (windowRect b row col).2.2.1 ≤ b.bx + b.bw ∧
    b.byv ≤ (windowRect b row col).2.1 ∧
    (windowRect b row col).2.2.2 ≤ b.byv + b.bh h := by
  simp only [windowRect, windowRows, windowCols, BuildingR.bh] at *
  omega

/-- Witness for c4_window_inside_building: cell (0, 0) of the concrete
building b0 on the 512-high canvas. -/
theorem c4_window_inside_building_witness :
    (0 < windowRows b0 512 ∧ 0 < windowCols b0) ∧
      (b0.bx ≤ (windowRect b0 0 0).1 ∧
       (windowRect b0 0 0).2.2.1 ≤ b0.bx + b0.bw ∧
       b0.byv ≤ (windowRect b0 0 0).2.1 ∧
       (windowRect b0 0 0).2.2.2 ≤ b0.byv + b0.bh 512) :=
  ⟨⟨by decide, by decide⟩, c4_window_inside_building b0 512 0 0 (by decide) (by decide)⟩

/-! ## Claim C5: the background gradient stage -/

/-- On the 512-wide canvas, the horizontal line of row yy rasterizes to
exactly the pixels (x, yy) with 0 <= x <= 512. -/
theorem segRegion_horiz (yy x y : ℤ) :
    segRegion 0 yy 512 yy x y = true ↔ (0 ≤ x ∧ x ≤ 512 ∧ y = yy) := by
  unfold segRegion
  simp only [Bool.and_eq_true, decide_eq_true_eq, sub_zero, sub_self, mul_zero, zero_sub,
    Int.natAbs_neg, Int.natAbs_mul, show ((512 : ℤ)).natAbs = 512 from rfl]
  omega

/-- Pixel contents of the gradient fold after the first n rows: rows
below n carry their gradient color, the rest is untouched. -/
theorem gradFold_pix (n : ℕ) (cv : Canvas) (hw : cv.w = 512) (hh : cv.h = 512)
    (x y : ℤ) (hx0 : 0 ≤ x) (hx : x < 512) (hy0 : 0 ≤ y) (hy : y < 512) :
    ((List.range n).foldl
        (fun c (yy : ℕ) => paint c (segRegion 0 (yy : ℤ) 512 (yy : ℤ)) (gradColor 512 yy))
        cv).pix x y
      = if y < (n : ℤ) then gradColor 512 y.toNat else cv.pix x y := by
  induction n with
  | zero =>
    rw [List.range_zero, List.foldl_nil, if_neg (by omega)]
  | succ n ih =>
    rw [List.range_succ, List.foldl_append, List.foldl_cons, List.foldl_nil]
    set cvn := (List.range n).foldl
      (fun c (yy : ℕ) => paint c (segRegion 0 (yy : ℤ) 512 (yy : ℤ)) (gradColor 512 yy)) cv
      with hcvn
    have hd : cvn.w = 512 ∧ cvn.h = 512 := by
      rw [hcvn]
      refine foldl_preserves (fun c : Canvas => c.w = 512 ∧ c.h = 512) _ _ _ ?_ ⟨hw, hh⟩
      intro c yy _ hc
      exact hc
    have hinB : cvn.inB x y = true := by
      unfold Canvas.inB
      rw [hd.1, hd.2]
      simp only [Bool.and_eq_true, decide_eq_true_eq]
      exact ⟨⟨⟨hx0, hx⟩, hy0⟩, hy⟩
    rw [paint_pix, hinB, Bool.true_and]
    by_cases hyn : y = (n : ℤ)
    · have hreg : segRegion 0 (n : ℤ) 512 (n : ℤ) x y = true :=
        (segRegion_horiz (n : ℤ) x y).mpr ⟨hx0, le_of_lt hx, hyn⟩
      rw [hreg, if_pos rfl, if_pos (by omega)]
      congr 1
      omega
    · have hreg : ¬ segRegion 0 (n : ℤ) 512 (n : ℤ) x y = true :=
        fun hcontra => hyn ((segRegion_horiz (n : ℤ) x y).mp hcontra).2.2
      rw [Bool.not_eq_true] at hreg
      rw [hreg, if_neg (by simp), ih]
      by_cases hlt : y < (n : ℤ)
      · rw [if_pos hlt, if_pos (by omega)]
      · rw [if_neg hlt, if_neg (by omega)]

set_option maxRecDepth 20000 in
/-- The canvas after the gradient stage carries the gradient color on
every in-bounds pixel. -/
theorem afterGradient_pix (x y : ℤ) (hx0 : 0 ≤ x) (hx : x < 512) (hy0 : 0 ≤ y)
    (hy : y < 512) : (afterGradient 512 512).pix x y = gradColor 512 y.toNat := by
  have h := gradFold_pix 512 (Canvas.new 512 512 bgColor) rfl rfl x y hx0 hx hy0 hy
  rw [if_pos (by exact_mod_cast hy)] at h
  exact h

theorem gradPurple_start : gradPurple 512 0 = 60 := by
  norm_num [gradPurple, floorNN]
  rfl

theorem gradPurple_bottom : gradPurple 512 511 = 0 := by
  norm_num [gradPurple, floorNN]

theorem gradPurple_decreasing {y1 y2 : ℕ} (hy : y1 ≤ y2) :
    gradPurple 512 y2 ≤ gradPurple 512 y1 := by
  refine floorNN_mono ?_
  have h1 : (y1 : ℚ) ≤ (y2 : ℚ) := by exact_mod_cast hy
  have h2 : (y1 : ℚ) / 512 ≤ (y2 : ℚ) / 512 := by
    apply div_le_div_of_nonneg_right h1
    norm_num
  push_cast
  linarith

theorem gradBlue_start : gradBlue 512 0 = 30 := by
  norm_num [gradBlue, floorNN]
  rfl

theorem gradBlue_bottom : gradBlue 512 511 = 69 := by
  norm_num [gradBlue, floorNN]
  rfl

theorem gradBlue_increasing {y1 y2 : ℕ} (hy : y1 ≤ y2) :
    gradBlue 512 y1 ≤ gradBlue 512 y2 := by
  refine floorNN_mono ?_
  have h1 : (y1 : ℚ) ≤ (y2 : ℚ) := by exact_mod_cast hy
  have h2 : (y1 : ℚ) / 512 ≤ (y2 : ℚ) / 512 := by
    apply div_le_div_of_nonneg_right h1
    norm_num
  push_cast
  linarith

/-- C5: after the background-gradient stage, every in-bounds pixel of
row y carries the single color (purple + 20, 10, blue) with
purple = int(60 * (1 - y/height)) and blue = int(30 + 40 * (y/height));
the purple component decreases from 60 at y = 0 to 0 at the bottom row
511, and the blue component increases from 30 to 69 over the same
range. -/
theorem c5_gradient_rows (x y : ℤ) (hx0 : 0 ≤ x) (hx : x < 512) (hy0 : 0 ≤ y)
    (hy : y < 512) :
    (afterGradient 512 512).pix x y = gradColor 512 y.toNat ∧
    gradColor 512 y.toNat =
      ⟨gradPurple 512 y.toNat + 20, 10, gradBlue 512 y.toNat⟩ ∧
    gradPurple 512 0 = 60 ∧ gradPurple 512 511 = 0 ∧
    (∀ y1 y2 : ℕ, y1 ≤ y2 → gradPurple 512 y2 ≤ gradPurple 512 y1) ∧
    gradBlue 512 0 = 30 ∧ gradBlue 512 511 = 69 ∧
    (∀ y1 y2 : ℕ, y1 ≤ y2 → gradBlue 512 y1 ≤ gradBlue 512 y2) :=
  ⟨afterGradient_pix x y hx0 hx hy0 hy, rfl, gradPurple_start, gradPurple_bottom,
   fun _ _ hy12 => gradPurple_decreasing hy12, gradBlue_start, gradBlue_bottom,
   fun _ _ hy12 => gradBlue_increasing hy12⟩

/-- Witness for c5_gradient_rows at pixel (0, 0). -/
theorem c5_gradient_rows_witness :
    (afterGradient 512 512).pix 0 0 = gradColor 512 0 ∧ gradColor 512 0 = ⟨80, 10, 30⟩ :=
  ⟨(c5_gradient_rows 0 0 (by norm_num) (by norm_num) (by norm_num) (by norm_num)).1,
   by rw [gradColor, gradPurple_start, gradBlue_start]⟩

/-! ## Claim C6: the window stage -/

/-- On draws in [0, 1), the lit event random.random() > 0.3 is exactly
the real interval (3/10, 1). -/
theorem windowLit_iff (u : ℚ) (_h0 : 0 ≤ u) (h1 : u < 1) :
    windowLit u = true ↔ ((u : ℝ) ∈ Set.Ioo (3 / 10 : ℝ) 1) := by
  unfold windowLit
  simp only [decide_eq_true_eq, Set.mem_Ioo]
  have hcast : ((3 / 10 : ℚ) : ℝ) = (3 / 10 : ℝ) := by norm_num
  constructor
  · intro h
    refine ⟨?_, by exact_mod_cast h1⟩
    rw [← hcast]
    exact_mod_cast h
  · rintro ⟨ha, -⟩
    rw [← hcast] at ha
    exact_mod_cast ha

/-- The uniform measure of the lit interval is 7/10: a window is drawn
with probability 0.7. -/
theorem lit_probability :
    MeasureTheory.volume (Set.Ioo (3 / 10 : ℝ) 1) = ENNReal.ofReal (7 / 10) := by
  rw [Real.volume_Ioo]
  norm_num

/-- An unlit cell of a building is left untouched by the whole
buildings-and-windows pass of that building, so it keeps the base
color. -/
theorem drawBuilding_unlit_pix (cv : Canvas) (hw : cv.w = 512) (hh : cv.h = 512)
    (b : BuildingR) (hb : b.Valid 512 512) (row col : ℕ)
    (hrow : row < windowRows b 512) (hcol : col < windowCols b)
    (hunlit : windowLit (b.wu row col) = false)
    (x y : ℤ)
    (hx1 : (windowRect b row col).1 ≤ x) (hx2 : x ≤ (windowRect b row col).2.2.1)
    (hy1 : (windowRect b row col).2.1 ≤ y) (hy2 : y ≤ (windowRect b row col).2.2.2) :
    (drawBuilding cv b 512).pix x y = b.base := by
  obtain ⟨hbx0, hbx1, hby0, hby1, hbw0, hbw1, -⟩ := hb
  simp only [windowRect] at hx1 hx2 hy1 hy2
  have hcol2 : (col : ℤ) < b.bw / 15 := by
    simp only [windowCols] at hcol
    omega
  have hrow2 : (row : ℤ) < (512 - b.byv) / 20 := by
    simp only [windowRows, BuildingR.bh] at hrow
    omega
  have hxb : 0 ≤ x ∧ x < 512 := by omega
  have hyb : 0 ≤ y ∧ y < 512 := by omega
  unfold drawBuilding drawBuildingWindows
  have hcond : (cv.inB x y &&
      rectRegion b.bx b.byv (b.bx + b.bw) (b.byv + b.bh 512) x y) = true := by
    simp only [Canvas.inB, rectRegion, hw, hh, Bool.and_eq_true, decide_eq_true_eq,
      BuildingR.bh]
    omega
  have hbase : (paint cv (rectRegion b.bx b.byv (b.bx + b.bw) (b.byv + b.bh 512))
      b.base).pix x y = b.base := by
    rw [paint_pix, hcond, if_pos rfl]
  refine foldl_preserves (fun c : Canvas => c.pix x y = b.base) _ _ _ ?_ hbase
  intro c row2 _ hc
  refine foldl_preserves (fun c2 : Canvas => c2.pix x y = b.base) _ _ _ ?_ hc
  intro c2 col2 _ hc2
  unfold drawWindowCell
  split
  · rename_i hlit
    by_cases heq : row2 = row ∧ col2 = col
    · exfalso
      rw [heq.1, heq.2, hunlit] at hlit
      exact Bool.false_ne_true hlit
    · have hne : row2 ≠ row ∨ col2 ≠ col := by tauto
      have hregf : rectRegion (windowRect b row2 col2).1 (windowRect b row2 col2).2.1
          (windowRect b row2 col2).2.2.1 (windowRect b row2 col2).2.2.2 x y = false := by
        rw [Bool.eq_false_iff]
        intro hcontra
        simp only [rectRegion, windowRect, Bool.and_eq_true, decide_eq_true_eq] at hcontra
        omega
      rw [paint_pix, hregf, Bool.and_false, if_neg (by simp)]
      exact hc2
  · exact hc2

/-- C6: in the windows stage a cell is lit exactly when the uniform draw
exceeds 0.3 — an event of probability 7/10; a lit window color is one
of the exactly six distinct neon palette entries; an unlit cell keeps
the building base color through the entire pass of its building. -/
theorem c6_window_probability_palette (cv : Canvas) (hw : cv.w = 512) (hh : cv.h = 512)
    (b : BuildingR) (hb : b.Valid 512 512) (row col : ℕ)
    (hrow : row < windowRows b 512) (hcol : col < windowCols b)
    (hunlit : windowLit (b.wu row col) = false)
    (x y : ℤ)
    (hx1 : (windowRect b row col).1 ≤ x) (hx2 : x ≤ (windowRect b row col).2.2.1)
    (hy1 : (windowRect b row col).2.1 ≤ y) (hy2 : y ≤ (windowRect b row col).2.2.2) :
    ((∀ u : ℚ, 0 ≤ u → u < 1 → (windowLit u = true ↔ (u : ℝ) ∈ Set.Ioo (3 / 10 : ℝ) 1)) ∧
     MeasureTheory.volume (Set.Ioo (3 / 10 : ℝ) 1) = ENNReal.ofReal (7 / 10)) ∧
    (neon_colors.length = 6 ∧ neon_colors.Nodup ∧
     (∀ idx, idx < 6 → neon_colors.getD idx ⟨0, 255, 255⟩ ∈ neon_colors)) ∧
    (drawBuilding cv b 512).pix x y = b.base :=
  ⟨⟨windowLit_iff, lit_probability⟩,
   ⟨by decide, by decide, by decide⟩,
   drawBuilding_unlit_pix cv hw hh b hb row col hrow hcol hunlit x y hx1 hx2 hy1 hy2⟩

/-- Witness for c6_window_probability_palette: cell (0, 0) of b0 is
unlit (its uniform draw is 0) and pixel (437, 175) inside that cell
keeps the base color. -/
theorem c6_window_probability_palette_witness :
    windowLit (b0.wu 0 0) = false ∧
      (drawBuilding (Canvas.new 512 512 bgColor) b0 512).pix 437 175 = b0.base :=
  ⟨by norm_num [windowLit, b0],
   (c6_window_probability_palette (Canvas.new 512 512 bgColor) rfl rfl b0 b0_Valid 0 0
      (by decide) (by decide) (by norm_num [windowLit, b0]) 437 175
      (by decide) (by decide) (by decide) (by decide)).2.2⟩

/-! ## Claim C7: the neon-sign glow rings -/

theorem glowFactor_strict_anti {k1 k2 : ℕ} (hk : k1 < k2) : glowFactor k2 < glowFactor k1 := by
  unfold glowFactor
  have h : (k1 : ℚ) < (k2 : ℚ) := by exact_mod_cast hk
  linarith

/-- C7 counterexample: at the valid sign position (50, 170), the first
additional glow ring has offset 0 — it coincides with the sign
rectangle — so it is not offset outward by 1 pixel from its
predecessor, and the claim as stated fails. -/
theorem c7_counterexample :
    sign0.Valid 512 512 ∧ glowRingRect sign0 0 = signRect sign0 ∧
      glowRingRect sign0 0 ≠ expandRect (ringPred sign0 0) 1 ∧ ¬ claimC7 sign0 := by
  refine ⟨by unfold SignR.Valid; decide, by decide, by decide, ?_⟩
  intro hcl
  have h0 := hcl 0 (by norm_num)
  revert h0
  decide

/-- C7 amended: each of the sign outlines is followed by exactly 3
additional concentric outline rectangles at offsets 0, 1 and 2 from the
sign — consecutive rings are 1 pixel apart but the first ring coincides
with the sign outline — with the brightness factor and the ring colors
strictly decreasing per ring. -/
theorem c7_sign_glow_rings (s : SignR) :
    (List.range 3).length = 3 ∧
    (∀ k : ℕ, glowRingRect s k = expandRect (signRect s) (k : ℤ)) ∧
    (∀ k : ℕ, glowRingRect s (k + 1) = expandRect (glowRingRect s k) 1) ∧
    (∀ k1 k2 : ℕ, k1 < k2 → glowFactor k2 < glowFactor k1) ∧
    (∀ c ∈ sign_colors, ∀ k : ℕ, k < 2 →
      (glowColor c (k + 1)).brightness < (glowColor c k).brightness) := by
  refine ⟨rfl, fun k => rfl, ?_, fun _ _ hk => glowFactor_strict_anti hk, ?_⟩
  · intro k
    simp only [glowRingRect, expandRect, Prod.mk.injEq]
    push_cast
    refine ⟨by ring, by ring, by ring, by ring⟩
  · intro c hc k hk
    simp only [sign_colors, List.mem_cons, List.not_mem_nil, or_false] at hc
    interval_cases k <;> rcases hc with rfl | rfl | rfl <;>
      · norm_num [glowColor, glowFactor, Color.brightness, floorNN]
        decide

/-! ## Claim C8: entry-point failure behavior -/

/-- C8 counterexample: a failure while saving the enhanced variant
(step 5) prints the error and the trace, does not print the success
line, yet leaves the already-written base file behind: the failing run
does not produce no files. -/
theorem c8_counterexample :
    (runMain (some 5)).files = [basePath] ∧ (runMain (some 5)).files ≠ [] ∧
    errLine ∈ (runMain (some 5)).stdout ∧ traceLine ∈ (runMain (some 5)).stdout ∧
    successLine ∉ (runMain (some 5)).stdout := by
  decide

/-- C8 amended: for a failure at any step up to and including the
success print, the error line and the trace are printed and the success
summary is not, and exactly the files saved by the steps already
completed remain on disk: none before the base save, the base file
alone up to the enhanced save, both files after both saves. -/
theorem c8_failure_effects (k : ℕ) (hk : k ≤ 7) :
    errLine ∈ (runMain (some k)).stdout ∧ traceLine ∈ (runMain (some k)).stdout ∧
    successLine ∉ (runMain (some k)).stdout ∧
    (runMain (some k)).files =
      (if k ≤ 3 then [] else if k ≤ 5 then [basePath] else [basePath, enhancedPath]) := by
  revert k
  decide

/-- Witness for c8_failure_effects at the enhanced-save failure step. -/
theorem c8_failure_effects_witness :
    5 ≤ 7 ∧ (runMain (some 5)).files =
      (if 5 ≤ 3 then [] else if 5 ≤ 5 then [basePath] else [basePath, enhancedPath]) :=
  ⟨by norm_num, (c8_failure_effects 5 (by norm_num)).2.2.2⟩

/-! ## Claim C9: dimension handling -/

/-- C9 counterexample: with the body parameterized by the requested
dimensions, render(0, 100) fails (the buildings randint range
randint(0, width - 80) is empty) but only after the gradient stage has
already drawn — not before any drawing — and the positive dimensions
(79, 100) fail in the same way, so positive dimensions do not always
succeed.  The shipped code never validates: its dimensions are the
fixed locals 512 x 512. -/
theorem c9_counterexample :
    (0 : ℤ) < 79 ∧ (0 : ℤ) < 100 ∧ (renderChecked 79 100 d0 K0).2 = none ∧
    renderChecked 0 100 d0 K0 = (["canvas", "gradient"], none) ∧
    "gradient" ∈ (renderChecked 0 100 d0 K0).1 := by
  exact ⟨by norm_num, by norm_num, rfl, rfl, by decide⟩

/-- C9 amended: the renderer takes no dimension arguments and rejects
nothing; its fixed 512 x 512 call passes every randint range check,
completes all stages, and returns a canvas of exactly 512 x 512. -/
theorem c9_fixed_dimensions (d : RandDraws) (K : Kernel) :
    renderChecked 512 512 d K = (allStages, some (render 512 512 d K)) ∧
    (render 512 512 d K).w = 512 ∧ (render 512 512 d K).h = 512 :=
  ⟨rfl, (dims_render 512 512 d K).1, (dims_render 512 512 d K).2⟩

/-! ## Claim C10: silent clipping of out-of-canvas primitives -/

/-- C10: primitives may be issued with coordinates outside the canvas —
a flying car center is sampled from the inclusive range [0, width], so
cx = 512 gives an ellipse box reaching x = 515 > 511, and a rain streak
at rx = 0 has second endpoint x = rx - 2 = -2 < 0; every call is
silently clipped (an out-of-bounds pixel is never written), never
fails, and never changes the canvas dimensions, which remain
512 x 512 through the whole pipeline. -/
theorem c10_out_of_canvas_clipped (d : RandDraws) (K : Kernel) (cv : Canvas)
    (reg : ℤ → ℤ → Bool) (c : Color) (x y : ℤ) (hout : cv.inB x y = false) :
    (create_cyberpunk_city d K).w = 512 ∧ (create_cyberpunk_city d K).h = 512 ∧
    (paint cv reg c).w = cv.w ∧ (paint cv reg c).h = cv.h ∧
    (paint cv reg c).pix x y = cv.pix x y ∧
    (∃ car : CarR, car.Valid 512 512 ∧ car.cx = 512 ∧ 511 < car.cx + 3) ∧
    (∀ r : RainR, r.rx = 0 → (rainSegEnd r).1 = -2 ∧ (rainSegEnd r).1 < 0) := by
  refine ⟨(dims_render 512 512 d K).1, (dims_render 512 512 d K).2, rfl, rfl, ?_, ?_, ?_⟩
  · exact paint_pix_of_false (by rw [hout, Bool.false_and])
  · exact ⟨⟨512, 128, 0, 15⟩, by unfold CarR.Valid; decide, rfl, by norm_num⟩
  · intro r hr
    constructor
    · norm_num [rainSegEnd, hr]
    · norm_num [rainSegEnd, hr]

/-- Witness for c10_out_of_canvas_clipped: the pixel (-1, 0) outside the
512 x 512 canvas is untouched by a paint over the whole plane. -/
theorem c10_out_of_canvas_clipped_witness :
    (Canvas.new 512 512 bgColor).inB (-1) 0 = false ∧
      (paint (Canvas.new 512 512 bgColor) (fun _ _ => true) bgColor).pix (-1) 0
        = (Canvas.new 512 512 bgColor).pix (-1) 0 :=
  ⟨by decide,
   (c10_out_of_canvas_clipped d0 K0 (Canvas.new 512 512 bgColor) (fun _ _ => true)
      bgColor (-1) 0 (by decide)).2.2.2.2.1⟩

end Cyberpunk
